import Mathlib

/-
Formal model of the node draining and pod eviction engine in
kubernetes_client.go of estafette-gke-preemptible-killer, together with
theorems about its behaviour.  Line numbers in the comments refer to
kubernetes_client.go.
-/

set_option maxHeartbeats 1000000

/-! ## Go primitives used by the code -/

/-- Model of Go strings.Split with a one-character separator, on the underlying
character list: the input is cut around every occurrence of the separator, and
the result always has at least one (possibly empty) piece, exactly as in Go
(for example the empty string splits to one empty piece, and a string of two
separators splits to three empty pieces). -/
def goSplitChars (sep : Char) : List Char → List (List Char)
| [] => [[]]
| c :: cs =>
  if c = sep then [] :: goSplitChars sep cs
  else
    match goSplitChars sep cs with
    | [] => [[c]]
    | w :: ws => (c :: w) :: ws

/-- Go strings.Split for a single-character separator (the code only splits on
the slash). -/
def goSplit (s : String) (sep : Char) : List String :=
  (goSplitChars sep s.data).map List.asString

/-- Go map assignment m[k] = v on a non-nil map, modelled on an association
list: the first binding of k is replaced, or a new binding is appended. -/
def mapAssign : List (String × String) → String → String → List (String × String)
| [], k, v => [(k, v)]
| (k', v') :: rest, k, v =>
  if k' = k then (k, v) :: rest else (k', v') :: mapAssign rest k v

/-- Capacity of the error channels used by DrainNode (line 187),
DrainKubeDNSFromNode (line 289) and evictPods (line 371): in Go,
make(chan error) creates an unbuffered channel, of capacity zero. -/
def errChCap : ℕ := 0

/-- Go len on a channel: the number of values sitting in the channel's buffer,
which is never more than its capacity; senders blocked on an unbuffered
channel contribute nothing to len. -/
def chanLen (queuedSends : ℕ) : ℕ :=
  min queuedSends errChCap

/-- The deferred pickup pattern shared by DrainNode (lines 188-192) and
evictPods (lines 372-377): if len(errCh) is positive, receive one value (the
earliest queued one) and return it, otherwise keep the value already being
returned.  pendingSends lists, oldest first, the values whose senders are
blocked on the channel. -/
def lenGuardedReceive {α : Type} (pendingSends : List α) (ret : Option α) : Option α :=
  if 0 < chanLen pendingSends.length then pendingSends.head? else ret

/-! ## Data model -/

/-- An owner reference of a pod; the code only consults its Kind field
(line 143). -/
structure OwnerReference where
  kind : String
deriving DecidableEq

/-- The fields of a Kubernetes pod that kubernetes_client.go consults. -/
structure Pod where
  name : String
  podNamespace : String
  nodeName : String
  ownerReferences : List OwnerReference
deriving DecidableEq

/-- The fields of a Kubernetes node that kubernetes_client.go consults.  The
field annotations is Option-valued because in Go the map may be nil. -/
structure Node where
  name : String
  providerID : String
  annotations : Option (List (String × String))
  unschedulable : Bool
deriving DecidableEq

/-! ## GetProjectIdAndZoneFromNode (lines 45-57) -/

/-- Result of a Go function call that can fault at runtime (slice index out of
range, assignment into a nil map) instead of returning. -/
inductive GoResult (α : Type) where
| ok (val : α)
| err (e : String)
| panics
deriving DecidableEq

/-- GetProjectIdAndZoneFromNode (lines 45-57): the node is fetched first (the
result of that fetch is the getNode argument); on fetch error that error is
returned and nothing is parsed; otherwise the provider id is split on the
slash and the pieces at positions 2 and 3 are returned.  Go panics when the
split has too few pieces for s[2] or s[3]; that fault is the panics result. -/
def GetProjectIdAndZoneFromNode (getNode : Except String Node) : GoResult (String × String) :=
  match getNode with
  | .error e => .err e
  | .ok node =>
    let s := goSplit node.providerID '/'
    match s[2]?, s[3]? with
    | some projectID, some zone => .ok (projectID, zone)
    | _, _ => .panics

/-! ## SetNodeAnnotation (lines 102-118) -/

/-- Result of SetNodeAnnotation: ok carries the node value passed to the
Update call (the freshly fetched node with the new binding written into its
annotation map); getNodeError models the wrapped fetch error of lines 105-108;
updateError models a failing Update call; panics models the Go runtime fault
of assigning into a nil map at line 110. -/
inductive SetAnnotationResult where
| ok (written : Node)
| getNodeError (e : String)
| updateError (e : String)
| panics
deriving DecidableEq

/-- SetNodeAnnotation (lines 102-118): re-fetch the node (result in the fetch
argument), write the key/value binding into the fetched node's annotation map
with a plain Go map assignment, then call Update on the mutated node (the
updateErr argument gives the outcome of Update for the node it receives). -/
def SetNodeAnnotation (fetch : Except String Node) (updateErr : Node → Option String)
    (key value : String) : SetAnnotationResult :=
  match fetch with
  | .error e => .getNodeError e
  | .ok newNode =>
    match newNode.annotations with
    | none => .panics
    | some m =>
      let written : Node := { newNode with annotations := some (mapAssign m key value) }
      match updateErr written with
      | some e => .updateError e
      | none => .ok written

/-! ## filterOutPodByOwnerReferenceKind (lines 140-150) -/

/-- filterOutPodByOwnerReferenceKind (lines 140-150): for each pod of the list
and each of its owner references, the pod is appended to the output whenever
that owner reference's kind differs from the given kind. -/
def filterOutPodByOwnerReferenceKind (podList : List Pod) (kind : String) : List Pod :=
  podList.foldl
    (fun output pod =>
      pod.ownerReferences.foldl
        (fun output ownerReference =>
          if ownerReference.kind ≠ kind then output ++ [pod] else output)
        output)
    []

/-! ## evictPod (lines 416-456) -/

/-- The classification predicates of the k8s.io/apimachinery errors package
that evictPod applies to an eviction error: IsNotFound, IsTooManyRequests,
IsForbidden, and HasStatusCause with the namespace-terminating cause.  msg
keeps distinct error values apart. -/
structure ApiError where
  notFound : Bool
  tooManyRequests : Bool
  forbidden : Bool
  nsTerminatingCause : Bool
  msg : String
deriving DecidableEq

/-- Which branch of evictPod's if/else chain (lines 427-448) a response to one
eviction attempt takes: success and the error classes in the order the code
tests them. -/
inductive Branch where
| success
| notFound
| tooMany
| forbiddenTerm
| fatal
deriving DecidableEq

/-- The branch taken for a response (none is a nil error).  The order of the
tests mirrors lines 428-447: IsNotFound first, then IsTooManyRequests, then
IsForbidden combined with the namespace-terminating cause, else the final
else branch. -/
def classify : Option ApiError → Branch
| none => .success
| some e =>
  if e.notFound then .notFound
  else if e.tooManyRequests then .tooMany
  else if e.forbidden && e.nsTerminatingCause then .forbiddenTerm
  else .fatal

/-- What evictPod returns, with the number of eviction attempts made and the
total seconds spent in the fixed five-second backoff sleeps. -/
inductive EvictPodResult where
| ok (attempts sleptSeconds : ℕ)
| fatal (e : ApiError) (attempts sleptSeconds : ℕ)
deriving DecidableEq

/-- The retry loop of evictPod (lines 426-454).  resp i is the control plane's
answer to the i-th eviction attempt (none means the eviction call succeeded);
stop i tells whether the pod's stop channel is already closed when the select
of lines 449-453 runs after the i-th attempt (that select is only reached from
the too-many-requests branch; every other branch leaves the loop first).  The
loop itself has no attempt bound, so the model unrolls it for fuel attempts
and answers none when the loop has not finished by then. -/
def evictPodAux (resp : ℕ → Option ApiError) (stop : ℕ → Bool) :
    ℕ → ℕ → ℕ → Option EvictPodResult
| 0, _, _ => none
| fuel + 1, i, slept =>
  match resp i with
  | none => some (.ok (i + 1) slept)
  | some e =>
    if e.notFound then some (.ok (i + 1) slept)
    else if e.tooManyRequests then
      if stop i then some (.ok (i + 1) (slept + 5))
      else evictPodAux resp stop fuel (i + 1) (slept + 5)
    else if e.forbidden && e.nsTerminatingCause then some (.ok (i + 1) slept)
    else some (.fatal e (i + 1) slept)

/-- evictPod, started at the first attempt with no sleep yet. -/
def evictPod (resp : ℕ → Option ApiError) (stop : ℕ → Bool) (fuel : ℕ) : Option EvictPodResult :=
  evictPodAux resp stop fuel 0 0

/-! ## evictPods (lines 367-414) -/

/-- The error value evictPods would return: line 375 wraps the received
eviction error with the message "error evicting pods, last error was". -/
inductive DrainErr where
| evictPodsLastError (e : ApiError)
deriving DecidableEq

/-- The deferred block of evictPods (lines 372-377): when len(errCh) is
positive, one error is received and wrapped into the returned lastErr,
otherwise the value already being returned stands. -/
def evictPodsDeferred (pendingSends : List ApiError) (ret : Option DrainErr) : Option DrainErr :=
  match lenGuardedReceive pendingSends none with
  | some e => some (.evictPodsLastError e)
  | none => ret

/-- Outcome of one per-pod goroutine of evictPods (lines 389-398):
completes none means evictPod returned nil, so the goroutine reaches wg.Done;
completes (some e) means evictPod returned the error e, so the goroutine
blocks forever sending e on the unbuffered errCh (line 395) and never reaches
wg.Done; hangs means evictPod itself never returns (endless throttling with
the pod's stop channel never fired). -/
inductive WorkerOutcome where
| completes (err : Option ApiError)
| hangs
deriving DecidableEq

/-- Observable behaviour of one evictPods call: the batches dispatched in
order, how many per-pod stop channels were closed by the stop branch of
lines 402-406, and whether/what the call returns - none means the call blocks
forever in wg.Wait (line 408), some lastErr means it returns lastErr. -/
structure EvictPodsRun where
  dispatched : List (List Pod)
  closedPodStopChs : ℕ
  returns : Option (Option DrainErr)
deriving DecidableEq

/-- The batch loop of evictPods (lines 379-413).  results gives each pod's
goroutine outcome, stopAt k tells whether the shared stop channel is already
closed when the select of lines 401-411 runs for batch k, pending lists the
errors whose senders are blocked on the unbuffered errCh.  Each round takes
min(numPodsLeft, 10) pods as the next contiguous batch, dispatches one
goroutine per pod, then either returns at once on stop (closing every per-pod
stop channel), or waits at the wg.Wait barrier - which completes exactly when
every goroutine of the batch reaches wg.Done - before advancing. -/
def evictPodsGo (results : Pod → WorkerOutcome) (stopAt : ℕ → Bool)
    (k : ℕ) (pending : List ApiError) (pods : List Pod) : EvictPodsRun :=
  if h : pods = [] then
    { dispatched := [], closedPodStopChs := 0,
      returns := some (evictPodsDeferred pending none) }
  else
    let numThisBatch := min pods.length 10
    let batch := pods.take numThisBatch
    let pending2 := pending ++ batch.filterMap (fun q =>
      match results q with
      | WorkerOutcome.completes (some e) => some e
      | _ => none)
    if stopAt k then
      { dispatched := [batch], closedPodStopChs := batch.length,
        returns := some (evictPodsDeferred pending2 none) }
    else if batch.all (fun q => results q == WorkerOutcome.completes none) then
      let r := evictPodsGo results stopAt (k + 1) pending2 (pods.drop numThisBatch)
      { dispatched := batch :: r.dispatched, closedPodStopChs := r.closedPodStopChs,
        returns := r.returns }
    else
      { dispatched := [batch], closedPodStopChs := 0, returns := none }
termination_by pods.length
decreasing_by
  simp only [List.length_drop]
  have hl : 0 < pods.length := List.length_pos.mpr h
  omega

/-- evictPods, started at the first batch with an empty channel. -/
def evictPods (results : Pod → WorkerOutcome) (stopAt : ℕ → Bool)
    (pods : List Pod) : EvictPodsRun :=
  evictPodsGo results stopAt 0 [] pods

/-- The contiguous batch partition that the loop of lines 379-381 walks
through: while pods remain, the next batch is the first min(numPodsLeft, 10)
of them. -/
def evictBatches (pods : List Pod) : List (List Pod) :=
  if h : pods = [] then []
  else
    let numThisBatch := min pods.length 10
    pods.take numThisBatch :: evictBatches (pods.drop numThisBatch)
termination_by pods.length
decreasing_by
  simp only [List.length_drop]
  have hl : 0 < pods.length := List.length_pos.mpr h
  omega

/-! ## DrainNode's resolution (lines 185-263) -/

/-- Which arm of DrainNode's final select (lines 242-256) fires first:
doneDraining from the poller having seen zero pending pods, the drain timeout,
or the cancellation of the surrounding context. -/
inductive DrainResolution where
| doneDraining
| timeoutReached
| contextDone
deriving DecidableEq

/-- What DrainNode does on resolution: which of its two internal stop channels
it closes, and the error it returns. -/
structure DrainNodeResult where
  stopPollingClosed : Bool
  stopEvictingClosed : Bool
  err : Option DrainErr
deriving DecidableEq

/-- DrainNode's resolving select (lines 242-256) combined with its deferred
error pickup (lines 188-192).  pendingSends lists the values the evictPods
goroutine of lines 194-198 is blocked sending on DrainNode's unbuffered errCh.
On doneDraining the select breaks and DrainNode returns nil; on timeout or
context cancellation it closes stopPolling and stopEvicting and returns nil;
in every case the deferred block may override the returned error only when
len(errCh) is positive. -/
def drainNodeResolve (pendingSends : List DrainErr) : DrainResolution → DrainNodeResult
| .doneDraining =>
  { stopPollingClosed := false, stopEvictingClosed := false,
    err := lenGuardedReceive pendingSends none }
| .timeoutReached =>
  { stopPollingClosed := true, stopEvictingClosed := true,
    err := lenGuardedReceive pendingSends none }
| .contextDone =>
  { stopPollingClosed := true, stopEvictingClosed := true,
    err := lenGuardedReceive pendingSends none }

/-! ## Concrete values used by witnesses and counterexamples -/

/-- A throttling response: IsTooManyRequests holds, nothing else. -/
def throttleErr : ApiError :=
  { notFound := false, tooManyRequests := true, forbidden := false,
    nsTerminatingCause := false, msg := "429: disruption budget" }

/-- A fatal response: none of the special predicates hold. -/
def fatalErr : ApiError :=
  { notFound := false, tooManyRequests := false, forbidden := false,
    nsTerminatingCause := false, msg := "connection refused" }

/-- A pod with a single owner reference that is not a DaemonSet. -/
def podA : Pod :=
  { name := "web-0", podNamespace := "default", nodeName := "node-1",
    ownerReferences := [{ kind := "ReplicaSet" }] }

/-- A pod with two owner references, neither of the excluded kind. -/
def podDup : Pod :=
  { name := "web-1", podNamespace := "default", nodeName := "node-1",
    ownerReferences := [{ kind := "ReplicaSet" }, { kind := "StatefulSet" }] }

/-- A pod with no owner references at all. -/
def podBare : Pod :=
  { name := "standalone", podNamespace := "default", nodeName := "node-1",
    ownerReferences := [] }

/-- A pod owned by a DaemonSet only. -/
def podDaemon : Pod :=
  { name := "ds-0", podNamespace := "default", nodeName := "node-1",
    ownerReferences := [{ kind := "DaemonSet" }] }

/-- A node with a well-formed GCE provider id. -/
def nodeA : Node :=
  { name := "node-1", providerID := "gce://my-project/us-central1-a/node-1",
    annotations := some [("existing", "x")], unschedulable := false }

/-- A node whose annotation map is nil. -/
def nodeNilMap : Node :=
  { name := "node-2", providerID := "gce://my-project/us-central1-a/node-2",
    annotations := none, unschedulable := false }

/-! ## Helper lemmas -/

/-- The error channels are unbuffered, so Go's len sees an empty buffer no
matter how many senders are blocked, and the length-guarded receive never
fires: the deferred blocks always keep the value already being returned. -/
theorem lenGuardedReceive_eq {α : Type} (pendingSends : List α) (ret : Option α) :
    lenGuardedReceive pendingSends ret = ret := by
  simp [lenGuardedReceive, chanLen, errChCap]

theorem evictPodsDeferred_eq (pendingSends : List ApiError) (ret : Option DrainErr) :
    evictPodsDeferred pendingSends ret = ret := by
  simp [evictPodsDeferred, lenGuardedReceive_eq]

theorem mapAssign_lookup_self (m : List (String × String)) (k v : String) :
    List.lookup k (mapAssign m k v) = some v := by
  induction m with
  | nil => simp [mapAssign, List.lookup]
  | cons kv rest ih =>
    obtain ⟨k', v'⟩ := kv
    by_cases h : k' = k
    · simp [mapAssign, h, List.lookup]
    · have hbeq : (k == k') = false := by simp [Ne.symm h]
      simp only [mapAssign, if_neg h, List.lookup, hbeq]
      exact ih

theorem mapAssign_lookup_other (m : List (String × String)) (k v k2 : String)
    (hne : k2 ≠ k) : List.lookup k2 (mapAssign m k v) = List.lookup k2 m := by
  induction m with
  | nil =>
    have hbeq : (k2 == k) = false := by simp [hne]
    simp [mapAssign, List.lookup, hbeq]
  | cons kv rest ih =>
    obtain ⟨k', v'⟩ := kv
    by_cases h : k' = k
    · subst h
      have hbeq : (k2 == k') = false := by simp [hne]
      simp [mapAssign, List.lookup, hbeq]
    · simp only [mapAssign, if_neg h, List.lookup]
      rw [ih]

theorem filterOut_inner_foldl (refs : List OwnerReference) (kind : String) (pod : Pod)
    (out : List Pod) :
    refs.foldl (fun output r => if r.kind ≠ kind then output ++ [pod] else output) out
      = out ++ List.replicate (refs.countP (fun r => r.kind != kind)) pod := by
  induction refs generalizing out with
  | nil => simp
  | cons r rs ih =>
    simp only [List.foldl_cons, List.countP_cons]
    by_cases hk : r.kind = kind
    · rw [if_neg (by simp [hk]), ih]
      simp [hk]
    · rw [if_pos hk, ih]
      have : (r.kind != kind) = true := by simp [hk]
      simp [this, List.replicate_succ, List.append_assoc]

theorem foldl_append_flatMap {α β : Type} (g : β → List α) (l : List β) (acc : List α) :
    l.foldl (fun out b => out ++ g b) acc = acc ++ l.flatMap g := by
  induction l generalizing acc with
  | nil => simp
  | cons b bs ih =>
    simp only [List.foldl_cons, List.flatMap_cons, ih, List.append_assoc]

/-- Normal form of filterOutPodByOwnerReferenceKind: each pod of the input is
replaced by as many copies of itself as it has owner references whose kind
differs from the excluded kind. -/
theorem filterOut_eq_flatMap (podList : List Pod) (kind : String) :
    filterOutPodByOwnerReferenceKind podList kind
      = podList.flatMap
          (fun pod => List.replicate (pod.ownerReferences.countP (fun r => r.kind != kind)) pod) := by
  unfold filterOutPodByOwnerReferenceKind
  simp only [filterOut_inner_foldl]
  simpa using foldl_append_flatMap
    (fun pod => List.replicate (pod.ownerReferences.countP (fun r => r.kind != kind)) pod)
    podList []

theorem filterOut_count (podList : List Pod) (kind : String) (p : Pod) :
    (filterOutPodByOwnerReferenceKind podList kind).count p
      = podList.count p * p.ownerReferences.countP (fun r => r.kind != kind) := by
  rw [filterOut_eq_flatMap]
  induction podList with
  | nil => simp
  | cons q qs ih =>
    simp only [List.flatMap_cons, List.count_append, ih, List.count_cons, List.count_replicate]
    by_cases h : q = p
    · subst h
      simp
      ring
    · simp [h]

theorem evictBatches_flatten (pods : List Pod) : (evictBatches pods).flatten = pods := by
  induction pods using evictBatches.induct with
  | case1 => simp [evictBatches]
  | case2 pods h n ih =>
    rw [evictBatches, dif_neg h]
    simp only [List.flatten_cons, ih]
    exact List.take_append_drop _ _

theorem evictBatches_length (pods : List Pod) :
    (evictBatches pods).length = (pods.length + 9) / 10 := by
  induction pods using evictBatches.induct with
  | case1 => simp [evictBatches]
  | case2 pods h n ih =>
    rw [evictBatches, dif_neg h]
    simp only [List.length_cons, ih, List.length_drop]
    have hl : 0 < pods.length := List.length_pos.mpr h
    show (pods.length - n + 9) / 10 + 1 = (pods.length + 9) / 10
    rcases le_or_lt pods.length 10 with hle | hgt
    · have h1 : n = pods.length := min_eq_left hle
      rw [h1]
      omega
    · have h1 : n = 10 := min_eq_right (by omega)
      rw [h1]
      have h2 : pods.length + 9 = (pods.length - 10 + 9) + 10 := by omega
      rw [h2, Nat.add_div_right _ (by norm_num)]

theorem evictBatches_size (pods : List Pod) : ∀ b ∈ evictBatches pods, b.length ≤ 10 := by
  induction pods using evictBatches.induct with
  | case1 => simp [evictBatches]
  | case2 pods h n ih =>
    rw [evictBatches, dif_neg h]
    intro b hb
    rcases List.mem_cons.mp hb with rfl | hb
    · simp only [List.length_take]
      omega
    · exact ih b hb

theorem evictBatches_mem_sublist (pods : List Pod) :
    ∀ b ∈ evictBatches pods, b.Sublist pods := by
  intro b hb
  have h := List.sublist_flatten_of_mem hb
  rwa [evictBatches_flatten] at h

/-- Whenever evictPods returns at all, the error it returns is nil: the
deferred pickup of lines 372-377 is guarded by the length of an unbuffered
channel, which is always zero. -/
theorem evictPodsGo_returns (results : Pod → WorkerOutcome) (stopAt : ℕ → Bool)
    (k : ℕ) (pending : List ApiError) (pods : List Pod) :
    ((evictPodsGo results stopAt k pending pods).returns).getD none = none := by
  induction k, pending, pods using evictPodsGo.induct results stopAt with
  | case1 k pending =>
    simp [evictPodsGo, evictPodsDeferred_eq]
  | case2 k pending pods hne hstop =>
    rw [evictPodsGo, dif_neg hne]
    simp [hstop, evictPodsDeferred_eq]
  | case3 k pending pods hne n batch pending2 hstop hall ih =>
    rw [evictPodsGo, dif_neg hne]
    simp only [if_neg hstop, if_pos hall]
    exact ih
  | case4 k pending pods hne n batch hstop hnall =>
    rw [evictPodsGo, dif_neg hne]
    simp [if_neg hstop, hnall]

/-- The batches evictPods dispatches form a prefix, in order, of the full
contiguous batch partition of its pod list. -/
theorem evictPodsGo_dispatched_prefix (results : Pod → WorkerOutcome) (stopAt : ℕ → Bool)
    (k : ℕ) (pending : List ApiError) (pods : List Pod) :
    (evictPodsGo results stopAt k pending pods).dispatched <+: evictBatches pods := by
  induction k, pending, pods using evictPodsGo.induct results stopAt with
  | case1 k pending =>
    simp [evictPodsGo, evictBatches]
  | case2 k pending pods hne hstop =>
    rw [evictPodsGo, dif_neg hne, evictBatches, dif_neg hne]
    simp only [if_pos hstop]
    exact ⟨evictBatches (pods.drop (min pods.length 10)), rfl⟩
  | case3 k pending pods hne n batch pending2 hstop hall ih =>
    rw [evictPodsGo, dif_neg hne, evictBatches, dif_neg hne]
    simp only [if_neg hstop, if_pos hall]
    exact (List.prefix_cons_inj _).mpr ih
  | case4 k pending pods hne n batch hstop hnall =>
    rw [evictPodsGo, dif_neg hne, evictBatches, dif_neg hne]
    simp only [if_neg hstop, if_neg hnall]
    exact ⟨evictBatches (pods.drop (min pods.length 10)), rfl⟩

/-- When the shared stop channel never fires and every per-pod goroutine
completes cleanly, evictPods dispatches the whole batch partition. -/
theorem evictPodsGo_dispatched_complete (results : Pod → WorkerOutcome) (stopAt : ℕ → Bool)
    (k : ℕ) (pending : List ApiError) (pods : List Pod)
    (hstop : ∀ j, stopAt j = false)
    (hres : ∀ p ∈ pods, results p = WorkerOutcome.completes none) :
    (evictPodsGo results stopAt k pending pods).dispatched = evictBatches pods := by
  induction k, pending, pods using evictPodsGo.induct results stopAt with
  | case1 k pending =>
    simp [evictPodsGo, evictBatches]
  | case2 k pending pods hne h2 =>
    rw [hstop k] at h2
    exact absurd h2 (by simp)
  | case3 k pending pods hne n batch pending2 h2 hall ih =>
    rw [evictPodsGo, dif_neg hne, evictBatches, dif_neg hne]
    simp only [if_neg h2, if_pos hall]
    have ih2 := ih (fun p hp => hres p (List.mem_of_mem_drop hp))
    simp only [List.cons.injEq]
    exact ⟨trivial, ih2⟩
  | case4 k pending pods hne n batch h2 hnall =>
    exfalso
    apply hnall
    rw [List.all_eq_true]
    intro q hq
    have hmem : q ∈ pods := List.take_subset _ _ hq
    rw [hres q hmem]
    simp

/-- The immediate-return branch of lines 401-406: if the shared stop channel
is already closed at the batch's select, every per-pod stop channel of the
batch is closed and evictPods returns at once (with a nil error), no matter
whether the batch's goroutines are still in flight. -/
theorem evictPodsGo_stop_eq (results : Pod → WorkerOutcome) (stopAt : ℕ → Bool)
    (k : ℕ) (pending : List ApiError) (pods : List Pod) (hne : pods ≠ [])
    (hstop : stopAt k = true) :
    evictPodsGo results stopAt k pending pods =
      { dispatched := [pods.take (min pods.length 10)],
        closedPodStopChs := (pods.take (min pods.length 10)).length,
        returns := some none } := by
  rw [evictPodsGo, dif_neg hne]
  simp [hstop, evictPodsDeferred_eq]

/-- The barrier branch of lines 407-411: if the stop channel has not fired and
some goroutine of the batch never reaches wg.Done, evictPods stays in wg.Wait
forever, with no per-pod stop channel closed. -/
theorem evictPodsGo_block_eq (results : Pod → WorkerOutcome) (stopAt : ℕ → Bool)
    (k : ℕ) (pending : List ApiError) (pods : List Pod) (hne : pods ≠ [])
    (hstop : stopAt k = false)
    (hnall : ((pods.take (min pods.length 10)).all
        (fun q => results q == WorkerOutcome.completes none)) = false) :
    evictPodsGo results stopAt k pending pods =
      { dispatched := [pods.take (min pods.length 10)],
        closedPodStopChs := 0, returns := none } := by
  rw [evictPodsGo, dif_neg hne]
  simp [hstop, hnall]

/-- The universal barrier gate of the batch loop: whenever the dispatch trace
holds a batch at position i+1, the select of batch i saw no stop signal and
every goroutine of batch i had reached wg.Done - batch i+1 is never
dispatched before batch i's barrier completes, for every i. -/
theorem evictPodsGo_barrier_gate (results : Pod → WorkerOutcome) (stopAt : ℕ → Bool) :
    ∀ (k0 : ℕ) (pending : List ApiError) (pods : List Pod) (i : ℕ) (b b2 : List Pod),
      (evictPodsGo results stopAt k0 pending pods).dispatched[i]? = some b →
      (evictPodsGo results stopAt k0 pending pods).dispatched[i + 1]? = some b2 →
      stopAt (k0 + i) = false ∧
        b.all (fun q => results q == WorkerOutcome.completes none) = true := by
  intro k0 pending pods
  induction k0, pending, pods using evictPodsGo.induct results stopAt with
  | case1 k pending =>
    intro i b b2 h1 h2
    rw [evictPodsGo] at h1
    simp at h1
  | case2 k pending pods hne hstop =>
    intro i b b2 h1 h2
    rw [evictPodsGo_stop_eq results stopAt k pending pods hne hstop] at h2
    simp at h2
  | case3 k pending pods hne n batch pending2 hstop hall ih =>
    intro i b b2 h1 h2
    rw [evictPodsGo, dif_neg hne] at h1 h2
    simp only [if_neg hstop, if_pos hall] at h1 h2
    cases i with
    | zero =>
      rw [Bool.not_eq_true] at hstop
      simp only [List.getElem?_cons_zero, Option.some.injEq] at h1
      subst h1
      constructor
      · simpa using hstop
      · exact hall
    | succ i2 =>
      simp only [List.getElem?_cons_succ] at h1 h2
      have hih := ih i2 b b2 h1 h2
      constructor
      · have e1 : k + 1 + i2 = k + (i2 + 1) := by omega
        rw [← e1]
        exact hih.1
      · exact hih.2
  | case4 k pending pods hne n batch hstop hnall =>
    intro i b b2 h1 h2
    rw [Bool.not_eq_true] at hstop hnall
    rw [evictPodsGo_block_eq results stopAt k pending pods hne hstop hnall] at h2
    simp at h2

/-- One unrolling of evictPod's loop, phrased through the branch taken by the
response to attempt i. -/
theorem evictPodAux_succ (resp : ℕ → Option ApiError) (stop : ℕ → Bool)
    (fuel i slept : ℕ) :
    evictPodAux resp stop (fuel + 1) i slept =
      match classify (resp i) with
      | .success => some (.ok (i + 1) slept)
      | .notFound => some (.ok (i + 1) slept)
      | .forbiddenTerm => some (.ok (i + 1) slept)
      | .tooMany =>
        if stop i then some (.ok (i + 1) (slept + 5))
        else evictPodAux resp stop fuel (i + 1) (slept + 5)
      | .fatal => (resp i).map (fun e => .fatal e (i + 1) slept) := by
  cases hr : resp i with
  | none => simp [evictPodAux, classify, hr]
  | some e =>
    cases h1 : e.notFound <;> cases h2 : e.tooManyRequests <;>
      cases h3 : (e.forbidden && e.nsTerminatingCause) <;>
      simp [evictPodAux, classify, hr, h1, h2, h3]

theorem evictPodAux_terminal_ok (resp : ℕ → Option ApiError) (stop : ℕ → Bool)
    (fuel i slept : ℕ)
    (h : classify (resp i) = .success ∨ classify (resp i) = .notFound ∨
        classify (resp i) = .forbiddenTerm) :
    evictPodAux resp stop (fuel + 1) i slept = some (.ok (i + 1) slept) := by
  rw [evictPodAux_succ]
  rcases h with h | h | h <;> rw [h]

theorem evictPodAux_tooMany_go (resp : ℕ → Option ApiError) (stop : ℕ → Bool)
    (fuel i slept : ℕ) (h : classify (resp i) = .tooMany) (hs : stop i = false) :
    evictPodAux resp stop (fuel + 1) i slept = evictPodAux resp stop fuel (i + 1) (slept + 5) := by
  rw [evictPodAux_succ, h]
  simp [hs]

theorem evictPodAux_tooMany_stop (resp : ℕ → Option ApiError) (stop : ℕ → Bool)
    (fuel i slept : ℕ) (h : classify (resp i) = .tooMany) (hs : stop i = true) :
    evictPodAux resp stop (fuel + 1) i slept = some (.ok (i + 1) (slept + 5)) := by
  rw [evictPodAux_succ, h]
  simp [hs]

theorem evictPodAux_fatal_eq (resp : ℕ → Option ApiError) (stop : ℕ → Bool)
    (fuel i slept : ℕ) (e : ApiError)
    (h : classify (resp i) = .fatal) (he : resp i = some e) :
    evictPodAux resp stop (fuel + 1) i slept = some (.fatal e (i + 1) slept) := by
  rw [evictPodAux_succ, h, he]
  rfl

/-- Running through n consecutive throttled attempts, none of which observes
the stop signal, just moves the loop n attempts and n five-second sleeps
forward. -/
theorem evictPodAux_throttle_run (resp : ℕ → Option ApiError) (stop : ℕ → Bool) :
    ∀ (n a fuel slept : ℕ),
      (∀ j, a ≤ j → j < a + n → classify (resp j) = .tooMany ∧ stop j = false) →
      evictPodAux resp stop (n + fuel) a slept
        = evictPodAux resp stop fuel (a + n) (slept + 5 * n) := by
  intro n
  induction n with
  | zero => intro a fuel slept _; simp
  | succ n ih =>
    intro a fuel slept h
    have h0 := h a (le_refl a) (by omega)
    have heq : n + 1 + fuel = (n + fuel) + 1 := by omega
    rw [heq, evictPodAux_tooMany_go resp stop (n + fuel) a slept h0.1 h0.2,
      ih (a + 1) fuel (slept + 5) (fun j hj1 hj2 => h j (by omega) (by omega))]
    have e1 : a + 1 + n = a + (n + 1) := by omega
    have e2 : slept + 5 + 5 * n = slept + 5 * (n + 1) := by omega
    rw [e1, e2]

/-- Whatever the loop of evictPod ends with: a nil return means the final
attempt succeeded, found the pod gone, hit the forbidden namespace-terminating
case, or was throttled with the stop signal set; an error return carries
exactly the response of the final attempt, and that response sat in the final
else branch. -/
theorem evictPodAux_returns_spec (resp : ℕ → Option ApiError) (stop : ℕ → Bool) :
    ∀ (fuel i slept : ℕ) (r : EvictPodResult),
      evictPodAux resp stop fuel i slept = some r →
      (match r with
       | .ok a _ =>
         classify (resp (a - 1)) = .success ∨ classify (resp (a - 1)) = .notFound ∨
           classify (resp (a - 1)) = .forbiddenTerm ∨
           (classify (resp (a - 1)) = .tooMany ∧ stop (a - 1) = true)
       | .fatal e a _ => resp (a - 1) = some e ∧ classify (resp (a - 1)) = .fatal) := by
  intro fuel
  induction fuel with
  | zero =>
    intro i slept r h
    simp [evictPodAux] at h
  | succ fuel ih =>
    intro i slept r h
    rw [evictPodAux_succ] at h
    cases hc : classify (resp i) with
    | success =>
      rw [hc] at h
      simp only [Option.some.injEq] at h
      subst h
      simp [hc]
    | notFound =>
      rw [hc] at h
      simp only [Option.some.injEq] at h
      subst h
      simp [hc]
    | forbiddenTerm =>
      rw [hc] at h
      simp only [Option.some.injEq] at h
      subst h
      simp [hc]
    | tooMany =>
      rw [hc] at h
      by_cases hs : stop i = true
      · rw [if_pos hs] at h
        simp only [Option.some.injEq] at h
        subst h
        simp [hc, hs]
      · rw [if_neg hs] at h
        exact ih (i + 1) (slept + 5) r h
    | fatal =>
      rw [hc] at h
      cases he : resp i with
      | none =>
        rw [he] at h
        simp at h
      | some e =>
        rw [he] at h
        simp only [Option.map_some', Option.some.injEq] at h
        subst h
        simp only [Nat.add_sub_cancel]
        exact ⟨he, hc⟩

/-! ## Claims -/

/-- C2: for every pod list and excluded kind, filterOutPodByOwnerReferenceKind
includes each pod in its output exactly once for every owner reference whose
kind differs from the excluded kind (counted per occurrence of the pod in the
input); in particular a pod with zero owner references is never included, and
a pod whose single owner reference has the excluded kind is never included. -/
theorem filterOutPodByOwnerReferenceKind_inclusion
    (podList : List Pod) (kind : String) (p : Pod) :
    (filterOutPodByOwnerReferenceKind podList kind).count p
        = podList.count p * p.ownerReferences.countP (fun r => r.kind != kind)
      ∧ (p.ownerReferences = [] → p ∉ filterOutPodByOwnerReferenceKind podList kind)
      ∧ (∀ r, p.ownerReferences = [r] → r.kind = kind →
          p ∉ filterOutPodByOwnerReferenceKind podList kind) := by
  refine ⟨filterOut_count podList kind p, ?_, ?_⟩
  · intro h0
    apply List.count_eq_zero.mp
    rw [filterOut_count, h0]
    simp
  · intro r hr hk
    apply List.count_eq_zero.mp
    rw [filterOut_count, hr]
    simp [List.countP_cons, hk]

/-- Witness for C2: in a list holding a pod without owner references, a
DaemonSet-owned pod and a ReplicaSet-owned pod, the first two are excluded
and the third is counted once per non-DaemonSet owner reference. -/
theorem filterOutPodByOwnerReferenceKind_inclusion_w :
    (filterOutPodByOwnerReferenceKind [podBare, podDaemon, podA] "DaemonSet").count podA
        = [podBare, podDaemon, podA].count podA
            * podA.ownerReferences.countP (fun r => r.kind != "DaemonSet")
      ∧ podBare ∉ filterOutPodByOwnerReferenceKind [podBare, podDaemon, podA] "DaemonSet"
      ∧ podDaemon ∉ filterOutPodByOwnerReferenceKind [podBare, podDaemon, podA] "DaemonSet" :=
  ⟨(filterOutPodByOwnerReferenceKind_inclusion [podBare, podDaemon, podA] "DaemonSet" podA).1,
   (filterOutPodByOwnerReferenceKind_inclusion [podBare, podDaemon, podA] "DaemonSet" podBare).2.1
     rfl,
   (filterOutPodByOwnerReferenceKind_inclusion [podBare, podDaemon, podA] "DaemonSet" podDaemon).2.2
     { kind := "DaemonSet" } rfl rfl⟩

/-- C3: the batch partition walked by evictPods has exactly the ceiling of
n/10 batches (in natural numbers, (n + 9) / 10), each of size at most 10,
concatenating contiguously to the input; the batches evictPods actually
dispatches always form a prefix of that partition, dispatch advances past the
first batch only when its barrier completed with no stop signal, and - for
every k - batch k+1 is only ever dispatched after batch k's barrier completed
(every goroutine of batch k reached wg.Done) with no stop signal observed at
batch k's select; with no stop signal and all evictions completing cleanly
every batch of the partition is dispatched, in order. -/
theorem evictPods_batch_partition (results : Pod → WorkerOutcome) (stopAt : ℕ → Bool)
    (pods : List Pod) :
    (evictBatches pods).length = (pods.length + 9) / 10
      ∧ (∀ b ∈ evictBatches pods, b.length ≤ 10)
      ∧ (evictBatches pods).flatten = pods
      ∧ (evictPods results stopAt pods).dispatched <+: evictBatches pods
      ∧ (2 ≤ (evictPods results stopAt pods).dispatched.length →
          stopAt 0 = false ∧
            ((pods.take (min pods.length 10)).all
              (fun q => results q == WorkerOutcome.completes none)) = true)
      ∧ (∀ i b b2,
          (evictPods results stopAt pods).dispatched[i]? = some b →
          (evictPods results stopAt pods).dispatched[i + 1]? = some b2 →
          stopAt i = false ∧
            b.all (fun q => results q == WorkerOutcome.completes none) = true)
      ∧ ((∀ j, stopAt j = false) → (∀ p ∈ pods, results p = WorkerOutcome.completes none) →
          (evictPods results stopAt pods).dispatched = evictBatches pods) := by
  refine ⟨evictBatches_length pods, evictBatches_size pods, evictBatches_flatten pods,
    evictPodsGo_dispatched_prefix results stopAt 0 [] pods, ?_, ?_, ?_⟩
  · intro h2
    by_cases hne : pods = []
    · subst hne
      rw [evictPods, evictPodsGo] at h2
      simp at h2
    · by_cases hs : stopAt 0 = true
      · rw [evictPods, evictPodsGo_stop_eq results stopAt 0 [] pods hne hs] at h2
        simp at h2
      · rw [Bool.not_eq_true] at hs
        by_cases hall : ((pods.take (min pods.length 10)).all
            (fun q => results q == WorkerOutcome.completes none)) = true
        · exact ⟨hs, hall⟩
        · rw [Bool.not_eq_true] at hall
          rw [evictPods, evictPodsGo_block_eq results stopAt 0 [] pods hne hs hall] at h2
          simp at h2
  · intro i b b2 h1 h2
    have hg := evictPodsGo_barrier_gate results stopAt 0 [] pods i b b2 h1 h2
    simpa using hg
  · intro hstop hres
    exact evictPodsGo_dispatched_complete results stopAt 0 [] pods hstop hres

/-- Witness for C3 on a list of twelve pods: two batches, the whole partition
dispatched, the first batch within the size bound, and the dispatch of the
second batch implying the first batch's barrier completed with no stop. -/
theorem evictPods_batch_partition_w :
    (evictBatches (List.replicate 12 podA)).length = 2
      ∧ (evictPods (fun _ => WorkerOutcome.completes none) (fun _ => false)
          (List.replicate 12 podA)).dispatched = evictBatches (List.replicate 12 podA)
      ∧ ((fun (_ : ℕ) => false) 0 = false
          ∧ (((List.replicate 12 podA).take (min (List.replicate 12 podA).length 10)).all
              (fun q => (fun (_ : Pod) => WorkerOutcome.completes none) q
                  == WorkerOutcome.completes none)) = true)
      ∧ ((fun (_ : ℕ) => false) 0 = false
          ∧ ((List.replicate 10 podA).all
              (fun q => (fun (_ : Pod) => WorkerOutcome.completes none) q
                  == WorkerOutcome.completes none)) = true) := by
  have h := evictPods_batch_partition (fun _ => WorkerOutcome.completes none) (fun _ => false)
    (List.replicate 12 podA)
  have hall := h.2.2.2.2.2.2 (fun j => rfl) (fun p hp => rfl)
  have heval : evictBatches (List.replicate 12 podA)
      = [List.replicate 10 podA, List.replicate 2 podA] := by
    simp [evictBatches]
  refine ⟨?_, hall, ?_, ?_⟩
  · rw [h.1]
    decide
  · apply h.2.2.2.2.1
    rw [hall, h.1]
    decide
  · exact h.2.2.2.2.2.1 0 (List.replicate 10 podA) (List.replicate 2 podA)
      (by rw [hall, heval]; rfl) (by rw [hall, heval]; rfl)

/-- The stop channel that never fires. -/
def stopNever : ℕ → Bool := fun _ => false

/-- A not-found response. -/
def notFoundErr : ApiError :=
  { notFound := true, tooManyRequests := false, forbidden := false,
    nsTerminatingCause := false, msg := "pods not found" }

/-- A response sequence: one throttled attempt, then a fatal error. -/
def respC4 : ℕ → Option ApiError :=
  fun n => if n = 0 then some throttleErr else some fatalErr

/-- A response sequence: two throttled attempts, then success. -/
def respC5 : ℕ → Option ApiError :=
  fun n => if n < 2 then some throttleErr else none

/-- C4: evictPod returns no error exactly when its final attempt succeeded,
reported not-found, reported forbidden with the namespace-terminating cause,
or was a throttled attempt after which the stop signal was observed; a
response in the final else branch makes evictPod terminate immediately,
returning exactly that error. -/
theorem evictPod_outcome_classification (resp : ℕ → Option ApiError) (stop : ℕ → Bool)
    (fuel : ℕ) :
    (∀ r, evictPod resp stop fuel = some r →
        (match r with
         | .ok a _ =>
           classify (resp (a - 1)) = .success ∨ classify (resp (a - 1)) = .notFound ∨
             classify (resp (a - 1)) = .forbiddenTerm ∨
             (classify (resp (a - 1)) = .tooMany ∧ stop (a - 1) = true)
         | .fatal e a _ => resp (a - 1) = some e ∧ classify (resp (a - 1)) = .fatal))
      ∧ (∀ i e, (∀ j, j < i → classify (resp j) = .tooMany ∧ stop j = false) →
          resp i = some e → classify (resp i) = .fatal → i + 1 ≤ fuel →
          evictPod resp stop fuel = some (.fatal e (i + 1) (5 * i)))
      ∧ (∀ i, (∀ j, j < i → classify (resp j) = .tooMany ∧ stop j = false) →
          i + 1 ≤ fuel →
          ((classify (resp i) = .success ∨ classify (resp i) = .notFound ∨
              classify (resp i) = .forbiddenTerm) →
            evictPod resp stop fuel = some (.ok (i + 1) (5 * i)))
          ∧ (classify (resp i) = .tooMany → stop i = true →
            evictPod resp stop fuel = some (.ok (i + 1) (5 * i + 5)))) := by
  refine ⟨?_, ?_, ?_⟩
  · intro r h
    exact evictPodAux_returns_spec resp stop fuel 0 0 r h
  · intro i e hrun he hc hfuel
    unfold evictPod
    obtain ⟨m, rfl⟩ : ∃ m, fuel = i + (m + 1) := ⟨fuel - i - 1, by omega⟩
    rw [evictPodAux_throttle_run resp stop i 0 (m + 1) 0 (fun j hj1 hj2 => hrun j (by omega))]
    simp only [Nat.zero_add]
    exact evictPodAux_fatal_eq resp stop m i (5 * i) e hc he
  · intro i hrun hfuel
    have hm : ∃ m, fuel = i + (m + 1) := ⟨fuel - i - 1, by omega⟩
    obtain ⟨m, rfl⟩ := hm
    constructor
    · intro hgood
      unfold evictPod
      rw [evictPodAux_throttle_run resp stop i 0 (m + 1) 0 (fun j hj1 hj2 => hrun j (by omega))]
      simp only [Nat.zero_add]
      exact evictPodAux_terminal_ok resp stop m i (5 * i) hgood
    · intro htm hst
      unfold evictPod
      rw [evictPodAux_throttle_run resp stop i 0 (m + 1) 0 (fun j hj1 hj2 => hrun j (by omega))]
      simp only [Nat.zero_add]
      exact evictPodAux_tooMany_stop resp stop m i (5 * i) htm hst

/-- Witness for C4: after one throttled attempt, a fatal error ends evictPod
at the second attempt with that very error; the same sequence with the stop
signal set ends at the first attempt with no error; and a first-attempt
success returns no error. -/
theorem evictPod_outcome_classification_w :
    evictPod respC4 stopNever 3 = some (.fatal fatalErr 2 5)
      ∧ evictPod respC4 (fun _ => true) 3 = some (.ok 1 5)
      ∧ evictPod (fun _ => none) stopNever 1 = some (.ok 1 0) :=
  ⟨(evictPod_outcome_classification respC4 stopNever 3).2.1 1 fatalErr
    (by decide) (by decide) (by decide) (by decide),
   (((evictPod_outcome_classification respC4 (fun _ => true) 3).2.2 0
      (by decide) (by decide)).2 (by decide) (by decide)),
   (((evictPod_outcome_classification (fun _ => none) stopNever 1).2.2 0
      (by decide) (by decide)).1 (by decide))⟩

/-- C5: N consecutive throttled attempts followed by a success make evictPod
return nil after exactly N+1 attempts, with five seconds slept between each
pair of consecutive attempts (5N seconds in total); a not-found response on
the first attempt returns nil after exactly one attempt with no sleep; and
this holds for every N, the loop having no maximum attempt count. -/
theorem evictPod_throttle_retry (resp : ℕ → Option ApiError) (stop : ℕ → Bool)
    (N fuel : ℕ) :
    ((∀ j, j < N → classify (resp j) = .tooMany ∧ stop j = false) →
        classify (resp N) = .success → N + 1 ≤ fuel →
        evictPod resp stop fuel = some (.ok (N + 1) (5 * N)))
      ∧ (classify (resp 0) = .notFound → 1 ≤ fuel →
        evictPod resp stop fuel = some (.ok 1 0)) := by
  constructor
  · intro hrun hN hfuel
    unfold evictPod
    obtain ⟨m, rfl⟩ : ∃ m, fuel = N + (m + 1) := ⟨fuel - N - 1, by omega⟩
    rw [evictPodAux_throttle_run resp stop N 0 (m + 1) 0 (fun j hj1 hj2 => hrun j (by omega))]
    simp only [Nat.zero_add]
    exact evictPodAux_terminal_ok resp stop m N (5 * N) (Or.inl hN)
  · intro h0 hfuel
    unfold evictPod
    obtain ⟨m, rfl⟩ : ∃ m, fuel = m + 1 := ⟨fuel - 1, by omega⟩
    have h := evictPodAux_terminal_ok resp stop m 0 0 (Or.inr (Or.inl h0))
    simpa using h

/-- Witness for C5: two throttles then success gives three attempts and ten
seconds of backoff; not-found on the first attempt gives one attempt and no
backoff. -/
theorem evictPod_throttle_retry_w :
    evictPod respC5 stopNever 5 = some (.ok 3 10)
      ∧ evictPod (fun _ => some notFoundErr) stopNever 1 = some (.ok 1 0) :=
  ⟨(evictPod_throttle_retry respC5 stopNever 2 5).1 (by decide) (by decide) (by decide),
   (evictPod_throttle_retry (fun _ => some notFoundErr) stopNever 0 1).2 (by decide) (by decide)⟩

/-- C6: when the drain session resolves by timeout or by external
cancellation rather than by the poller reporting the node drained, DrainNode
closes both internal stop channels - the polling loop's and the eviction
pipeline's - and returns no error from that resolution path. -/
theorem drainNode_soft_stop (pendingSends : List DrainErr) (r : DrainResolution)
    (h : r ≠ DrainResolution.doneDraining) :
    drainNodeResolve pendingSends r =
      { stopPollingClosed := true, stopEvictingClosed := true, err := none } := by
  cases r with
  | doneDraining => exact absurd rfl h
  | timeoutReached => simp [drainNodeResolve, lenGuardedReceive_eq]
  | contextDone => simp [drainNodeResolve, lenGuardedReceive_eq]

/-- Witness for C6: a timeout resolution, even with a fatal eviction error
blocked on the unbuffered error channel, closes both stops and returns nil. -/
theorem drainNode_soft_stop_w :
    drainNodeResolve [DrainErr.evictPodsLastError fatalErr] DrainResolution.timeoutReached =
      { stopPollingClosed := true, stopEvictingClosed := true, err := none } :=
  drainNode_soft_stop [DrainErr.evictPodsLastError fatalErr] DrainResolution.timeoutReached
    (by decide)

/-- C8: if the shared stop channel has fired by the time a batch's select
runs, evictPods closes the stop channel of every pod of the batch and returns
at once, whatever the state of the batch's in-flight tasks; if it has not
fired, evictPods sits at the wg.Wait barrier, which never completes when some
goroutine of the batch fails to reach wg.Done. -/
theorem evictPods_stop_mid_batch (results : Pod → WorkerOutcome) (stopAt : ℕ → Bool)
    (k : ℕ) (pending : List ApiError) (pods : List Pod) (hne : pods ≠ []) :
    (stopAt k = true →
        evictPodsGo results stopAt k pending pods =
          { dispatched := [pods.take (min pods.length 10)],
            closedPodStopChs := (pods.take (min pods.length 10)).length,
            returns := some none })
      ∧ (stopAt k = false →
          ((pods.take (min pods.length 10)).all
              (fun q => results q == WorkerOutcome.completes none)) = false →
          evictPodsGo results stopAt k pending pods =
            { dispatched := [pods.take (min pods.length 10)],
              closedPodStopChs := 0, returns := none }) :=
  ⟨fun hs => evictPodsGo_stop_eq results stopAt k pending pods hne hs,
   fun hs hnall => evictPodsGo_block_eq results stopAt k pending pods hne hs hnall⟩

/-- Witness for C8: with one pod whose eviction ends in a fatal error, a fired
stop signal yields an immediate return with the pod's stop channel closed,
while an unfired one leaves evictPods blocked forever at the barrier. -/
theorem evictPods_stop_mid_batch_w :
    evictPodsGo (fun _ => WorkerOutcome.completes (some fatalErr)) (fun _ => true) 0 [] [podA]
        = { dispatched := [[podA]], closedPodStopChs := 1, returns := some none }
      ∧ evictPodsGo (fun _ => WorkerOutcome.completes (some fatalErr)) (fun _ => false) 0 [] [podA]
        = { dispatched := [[podA]], closedPodStopChs := 0, returns := none } := by
  constructor
  · have h := (evictPods_stop_mid_batch (fun _ => WorkerOutcome.completes (some fatalErr))
      (fun _ => true) 0 [] [podA] (by decide)).1 rfl
    simpa using h
  · have h := (evictPods_stop_mid_batch (fun _ => WorkerOutcome.completes (some fatalErr))
      (fun _ => false) 0 [] [podA] (by decide)).2 rfl (by decide)
    simpa using h

/-- Counterexample to C7 as stated: podDup carries two owner references,
neither a DaemonSet, so the owner-kind filter emits it twice, and the single
batch evictPods dispatches holds the same pod twice - two concurrent eviction
tasks for one pod within one batch. -/
theorem evictPods_duplicate_in_batch_cex :
    (evictPods (fun _ => WorkerOutcome.completes none) (fun _ => false)
        (filterOutPodByOwnerReferenceKind [podDup] "DaemonSet")).dispatched
        = [[podDup, podDup]]
      ∧ ¬ ([podDup, podDup].Nodup) := by
  constructor
  · have h1 : filterOutPodByOwnerReferenceKind [podDup] "DaemonSet" = [podDup, podDup] := by
      decide
    rw [h1, evictPods,
      evictPodsGo_dispatched_complete _ _ _ _ _ (fun j => rfl) (fun p hp => rfl)]
    simp [evictBatches]
  · decide

/-- C7 amended: the batch evictor itself introduces no duplicates - when the
pod list handed to evictPods contains no pod twice, no dispatched batch
contains the same pod twice; the duplicate concurrent evictions of C7 come
solely from the owner-kind filter emitting one copy of a pod per non-matching
owner reference. -/
theorem evictPods_batch_nodup (results : Pod → WorkerOutcome) (stopAt : ℕ → Bool)
    (pods : List Pod) (h : pods.Nodup) :
    ∀ b ∈ (evictPods results stopAt pods).dispatched, b.Nodup := by
  intro b hb
  have hpre := evictPodsGo_dispatched_prefix results stopAt 0 [] pods
  have hmem : b ∈ evictBatches pods := hpre.subset hb
  exact h.sublist (evictBatches_mem_sublist pods b hmem)

/-- Witness for the amended C7 on a duplicate-free two-pod list. -/
theorem evictPods_batch_nodup_w :
    [podA, podDup].Nodup
      ∧ ∀ b ∈ (evictPods (fun _ => WorkerOutcome.completes none) (fun _ => false)
          [podA, podDup]).dispatched, b.Nodup :=
  ⟨by decide,
   evictPods_batch_nodup (fun _ => WorkerOutcome.completes none) (fun _ => false)
     [podA, podDup] (by decide)⟩

/-- C1 (contradicted by the code): fatal eviction errors are never surfaced
by the drain invocation.  Whenever evictPods returns at all, its error is nil,
because the deferred pickup of lines 372-377 is guarded by len of an
unbuffered channel, which is always zero; at the failing input - one pod
whose eviction reports a fatal error, with no stop signal - evictPods never
even returns, since the worker goroutine blocks forever sending on errCh
before reaching wg.Done, so wg.Wait never completes; and DrainNode's own
resolution paths return a nil error for the same reason (lines 188-192). -/
theorem evictPods_fatal_error_never_surfaced :
    (∀ (results : Pod → WorkerOutcome) (stopAt : ℕ → Bool) (k : ℕ)
        (pending : List ApiError) (pods : List Pod),
        ((evictPodsGo results stopAt k pending pods).returns).getD none = none)
      ∧ (evictPods (fun _ => WorkerOutcome.completes (some fatalErr)) (fun _ => false)
          [podA]).returns = none
      ∧ (∀ (pendingSends : List DrainErr) (r : DrainResolution),
          (drainNodeResolve pendingSends r).err = none) := by
  refine ⟨evictPodsGo_returns, ?_, ?_⟩
  · rw [evictPods, evictPodsGo_block_eq _ _ _ _ _ (by decide) rfl (by decide)]
  · intro pendingSends r
    cases r <;> simp [drainNodeResolve, lenGuardedReceive_eq]

/-- C9: for a node whose provider identity splits on the slash into at least
four pieces, GetProjectIdAndZoneFromNode returns piece 2 as the project id
and piece 3 as the zone; when fetching the node fails, that error is returned
and no parsing occurs. -/
theorem getProjectIdAndZoneFromNode_parse :
    (∀ (node : Node) (h : 4 ≤ (goSplit node.providerID '/').length),
        GetProjectIdAndZoneFromNode (Except.ok node)
          = GoResult.ok ((goSplit node.providerID '/').get ⟨2, by omega⟩,
              (goSplit node.providerID '/').get ⟨3, by omega⟩))
      ∧ (∀ e : String, GetProjectIdAndZoneFromNode (Except.error e) = GoResult.err e) := by
  constructor
  · intro node h
    have h2 : 2 < (goSplit node.providerID '/').length := by omega
    have h3 : 3 < (goSplit node.providerID '/').length := by omega
    simp [GetProjectIdAndZoneFromNode, List.getElem?_eq_getElem, h2, h3]
  · intro e
    rfl

/-- Witness for C9: a GCE provider identity yields its project and zone. -/
theorem getProjectIdAndZoneFromNode_parse_w :
    GetProjectIdAndZoneFromNode (Except.ok nodeA)
        = GoResult.ok ("my-project", "us-central1-a")
      ∧ GetProjectIdAndZoneFromNode (Except.error "node nodes not found")
        = GoResult.err "node nodes not found" := by
  constructor
  · have h := getProjectIdAndZoneFromNode_parse.1 nodeA (by decide)
    rw [h]
    decide
  · exact getProjectIdAndZoneFromNode_parse.2 "node nodes not found"

/-- C10: SetNodeAnnotation writes the key/value binding into the annotation
map of the freshly re-fetched node and hands exactly that mutated node to the
Update call; the write presupposes that the fetched node's annotation map
exists - when the map is nil, the operation faults with a nil-map assignment
instead of returning an error. -/
theorem setNodeAnnotation_write_or_fault (fetch : Except String Node)
    (updateErr : Node → Option String) (key value : String) :
    (∀ n m, fetch = Except.ok n → n.annotations = some m →
        (( SetNodeAnnotation fetch updateErr key value
            = (match updateErr { n with annotations := some (mapAssign m key value) } with
               | some e => SetAnnotationResult.updateError e
               | none =>
                 SetAnnotationResult.ok { n with annotations := some (mapAssign m key value) }))
          ∧ List.lookup key (mapAssign m key value) = some value
          ∧ ∀ k2, k2 ≠ key → List.lookup k2 (mapAssign m key value) = List.lookup k2 m))
      ∧ (∀ n, fetch = Except.ok n → n.annotations = none →
          SetNodeAnnotation fetch updateErr key value = SetAnnotationResult.panics) := by
  constructor
  · rintro n m rfl hm
    refine ⟨?_, mapAssign_lookup_self m key value,
      fun k2 hk2 => mapAssign_lookup_other m key value k2 hk2⟩
    simp only [ SetNodeAnnotation]
    rw [hm]
  · rintro n rfl hm
    simp only [ SetNodeAnnotation]
    rw [hm]

/-- Witness for C10: on a node carrying an annotation map, the binding is
written and the mutated node is what Update receives; on a node with a nil
map, the operation faults. -/
theorem setNodeAnnotation_write_or_fault_w :
    ( SetNodeAnnotation (Except.ok nodeA) (fun _ => none) "state" "t1"
        = SetAnnotationResult.ok
            { nodeA with annotations := some (mapAssign [("existing", "x")] "state" "t1") }
      ∧ List.lookup "state" (mapAssign [("existing", "x")] "state" "t1") = some "t1")
      ∧ SetNodeAnnotation (Except.ok nodeNilMap) (fun _ => none) "state" "t1"
          = SetAnnotationResult.panics := by
  have hA := (setNodeAnnotation_write_or_fault (Except.ok nodeA) (fun _ => none)
    "state" "t1").1 nodeA [("existing", "x")] rfl rfl
  have hB := (setNodeAnnotation_write_or_fault (Except.ok nodeNilMap) (fun _ => none)
    "state" "t1").2 nodeNilMap rfl rfl
  exact ⟨⟨hA.1, hA.2.1⟩, hB⟩
